/-
  Verification of the ton-grpc JSON-RPC gateway (src/main.rs) against its
  natural-language specification.

  The Rust source is shallowly embedded: each request handler's pure
  decision logic (parameter resolution, stream composition, account-id
  canonicalization, error mapping) is translated into executable Lean
  definitions.  Backend calls (the tonlib client) are modelled as explicit
  function parameters; asynchronous streams are modelled as the lists of
  elements they yield; a Rust panic (an .unwrap() on an Err/None) is
  modelled by an Option-valued result where none means the handler panics
  and produces no response.
-/
import Mathlib

namespace TonGrpc

/-! ## jsonrpc_core error model

  jsonrpc_core::Error carries an error code and a message.
  Error::invalid_params(m) builds an InvalidParams error with message m;
  Error::internal_error() is the fixed, detail-free internal error. -/

inductive ErrorCode where
  | invalidParams
  | internalError
  deriving DecidableEq, Repr

structure Error where
  code : ErrorCode
  message : String
  deriving DecidableEq, Repr

def Error.invalid_params (m : String) : Error :=
  { code := ErrorCode.invalidParams, message := m }

def Error.internal_error : Error :=
  { code := ErrorCode.internalError, message := "Internal error" }

/-- An error produced by the backend tonlib client (anyhow::Error in the
    source).  Only its printable detail matters to the gateway, which must
    never leak it. -/
structure BackendError where
  details : String
  deriving DecidableEq, Repr

/-- `fn jsonrpc_error<T>(r: anyhow::Result<T>) -> Result<T>`:
    `r.map_err(|_| Error::internal_error())` (src/main.rs lines 267-269). -/
def jsonrpc_error {α : Type} (r : Except BackendError α) : Except Error α :=
  match r with
  | Except.ok v => Except.ok v
  | Except.error _ => Except.error Error.internal_error

/-! ## Decimal parsing of signed 64-bit integers

  `shard.parse::<i64>()` and `x.parse::<i64>()` in the source use Rust's
  i64::from_str: an optional single leading sign, then one or more ASCII
  decimal digits, and the value must fit in a signed 64-bit integer
  (overflow is a parse error).  Accumulating exactly and checking the
  bound at the end accepts and rejects exactly the same strings as Rust's
  per-step checked arithmetic. -/

def decDigit (c : Char) : Option Nat :=
  if '0' ≤ c ∧ c ≤ '9' then some (c.toNat - 48) else none

def decDigitsAux : Nat → List Char → Option Nat
  | acc, [] => some acc
  | acc, c :: cs =>
    match decDigit c with
    | some d => decDigitsAux (acc * 10 + d) cs
    | none => none

def parse_i64 (s : String) : Option Int :=
  match s.data with
  | [] => none
  | '+' :: cs =>
    match cs with
    | [] => none
    | _ => (decDigitsAux 0 cs).bind fun n =>
        if n ≤ 2 ^ 63 - 1 then some (n : Int) else none
  | '-' :: cs =>
    match cs with
    | [] => none
    | _ => (decDigitsAux 0 cs).bind fun n =>
        if n ≤ 2 ^ 63 then some (-(n : Int)) else none
  | cs => (decDigitsAux 0 cs).bind fun n =>
      if n ≤ 2 ^ 63 - 1 then some (n : Int) else none

/-! ## lookupBlock parameter resolution (src/main.rs lines 130-143) -/

/-- `struct LookupBlockParams` (src/main.rs lines 34-41): workchain: i64,
    shard: String, seqno: Option of u64, lt: Option of i64,
    unixtime: Option of u64. -/
structure LookupBlockParams where
  workchain : Int
  shard : String
  seqno : Option Nat
  lt : Option Int
  unixtime : Option Nat
  deriving DecidableEq, Repr

/-- Which backend lookup call `lookup_block` dispatches to. -/
inductive LookupDecision where
  | bySeqno (workchain shard : Int) (seqno : Nat)
  | byLt (workchain shard : Int) (lt : Int)
  deriving DecidableEq, Repr

/-- The pure decision logic of `fn lookup_block` (src/main.rs lines
    130-143): parse the shard string as i64 (failure yields InvalidParams
    "invalid shard"), then match on (seqno, lt, unixtime):
    (Some seqno, None, None) with seqno > 0 resolves by sequence number;
    (None, Some lt, None) with lt > 0 resolves by logical time;
    (None, None, Some _) yields InvalidParams "unixtime is not supported";
    every other combination (a failed guard included) yields InvalidParams
    "seqno or lt or unixtime must be provided". -/
def lookup_block_resolve (p : LookupBlockParams) : Except Error LookupDecision :=
  match parse_i64 p.shard with
  | none => Except.error (Error.invalid_params "invalid shard")
  | some shard =>
    match p.seqno, p.lt, p.unixtime with
    | some seqno, none, none =>
      if 0 < seqno then Except.ok (LookupDecision.bySeqno p.workchain shard seqno)
      else Except.error (Error.invalid_params "seqno or lt or unixtime must be provided")
    | none, some lt, none =>
      if 0 < lt then Except.ok (LookupDecision.byLt p.workchain shard lt)
      else Except.error (Error.invalid_params "seqno or lt or unixtime must be provided")
    | none, none, some _ =>
      Except.error (Error.invalid_params "unixtime is not supported")
    | _, _, _ =>
      Except.error (Error.invalid_params "seqno or lt or unixtime must be provided")

/-- The full `lookup_block` handler: resolution followed by the chosen
    backend call, whose failures are collapsed by `jsonrpc_error`. -/
def lookup_block {α : Type} (backend : LookupDecision → Except BackendError α)
    (p : LookupBlockParams) : Except Error α :=
  match lookup_block_resolve p with
  | Except.error e => Except.error e
  | Except.ok d => jsonrpc_error (backend d)

deriving instance DecidableEq for Except

/-- C1 counterexample: the claim says that whenever `unixtime` is present —
    regardless of which other fields are set — the call fails with the
    explicit "unixtime is not supported" error.  On the input with
    seqno = 1 and unixtime = 1 both present, the code instead falls to the
    catch-all arm and returns InvalidParams "seqno or lt or unixtime must
    be provided". -/
theorem lookup_block_unixtime_not_dominant :
    lookup_block_resolve ⟨0, "1", some 1, none, some 1⟩ =
      Except.error (Error.invalid_params "seqno or lt or unixtime must be provided") ∧
    lookup_block_resolve ⟨0, "1", some 1, none, some 1⟩ ≠
      Except.error (Error.invalid_params "unixtime is not supported") := by
  refine ⟨by decide, by decide⟩

/-- C1 (amended): after the shard string parses, lookupBlock resolves by
    sequence number when seqno is present and positive and lt/unixtime are
    absent; resolves by logical time when lt is present and positive and
    seqno/unixtime are absent; fails with the explicit "unixtime is not
    supported" error when unixtime is present and BOTH seqno and lt are
    absent; and every other combination (none set, multiple set,
    seqno/lt nonpositive, unixtime together with seqno or lt) fails with
    InvalidParams "seqno or lt or unixtime must be provided". -/
theorem lookup_block_param_cases (p : LookupBlockParams) (shard : Int)
    (h : parse_i64 p.shard = some shard) :
    (∀ seqno, p.seqno = some seqno → 0 < seqno → p.lt = none → p.unixtime = none →
      lookup_block_resolve p = Except.ok (LookupDecision.bySeqno p.workchain shard seqno)) ∧
    (∀ lt, p.lt = some lt → 0 < lt → p.seqno = none → p.unixtime = none →
      lookup_block_resolve p = Except.ok (LookupDecision.byLt p.workchain shard lt)) ∧
    (p.seqno = none → p.lt = none → p.unixtime ≠ none →
      lookup_block_resolve p = Except.error (Error.invalid_params "unixtime is not supported")) ∧
    ((¬ ∃ seqno, p.seqno = some seqno ∧ 0 < seqno ∧ p.lt = none ∧ p.unixtime = none) →
     (¬ ∃ lt, p.lt = some lt ∧ 0 < lt ∧ p.seqno = none ∧ p.unixtime = none) →
     ¬ (p.seqno = none ∧ p.lt = none ∧ p.unixtime ≠ none) →
      lookup_block_resolve p =
        Except.error (Error.invalid_params "seqno or lt or unixtime must be provided")) := by
  refine ⟨?_, ?_, ?_, ?_⟩
  · intro seqno hs hpos hlt hu
    simp only [lookup_block_resolve, h, hs, hlt, hu]
    simp [hpos]
  · intro lt hl hpos hs hu
    simp only [lookup_block_resolve, h, hl, hs, hu]
    simp [hpos]
  · intro hs hl hu
    rcases hu' : p.unixtime with _ | u
    · exact absurd hu' hu
    · simp only [lookup_block_resolve, h, hs, hl, hu']
  · intro h1 h2 h3
    rcases hs : p.seqno with _ | s <;> rcases hl : p.lt with _ | l <;>
      rcases hu : p.unixtime with _ | u <;>
      simp only [lookup_block_resolve, h] <;>
      simp_all

/-- Witness for `lookup_block_param_cases` at a concrete input: shard "5"
    parses, seqno = 3 alone is positive, and the call resolves by
    sequence number. -/
theorem lookup_block_param_cases_witness :
    lookup_block_resolve ⟨0, "5", some 3, none, none⟩ =
      Except.ok (LookupDecision.bySeqno 0 5 3) :=
  (lookup_block_param_cases ⟨0, "5", some 3, none, none⟩ 5 (by decide)).1
    3 rfl (by decide) rfl rfl

/-! ## base64 (standard alphabet, padded encode, strict decode)

  Model of the `base64` crate functions used by the source:
  `base64::encode` (standard alphabet, padded output) and
  `base64::decode` (standard alphabet; a final quad may omit its padding;
  a symbol whose unused trailing bits are nonzero is rejected; a padding
  character anywhere but the tail of the input is rejected; an input whose
  length is congruent to 1 mod 4 is rejected).  Bytes are Nat values below
  256.  Decode errors carry the crate's short description strings. -/

def b64Char (n : Nat) : Char :=
  if n < 26 then Char.ofNat (65 + n)
  else if n < 52 then Char.ofNat (97 + (n - 26))
  else if n < 62 then Char.ofNat (48 + (n - 52))
  else if n = 62 then '+'
  else '/'

def b64Val (c : Char) : Option Nat :=
  if 'A' ≤ c ∧ c ≤ 'Z' then some (c.toNat - 65)
  else if 'a' ≤ c ∧ c ≤ 'z' then some (c.toNat - 97 + 26)
  else if '0' ≤ c ∧ c ≤ '9' then some (c.toNat - 48 + 52)
  else if c = '+' then some 62
  else if c = '/' then some 63
  else none

def base64EncodeList : List Nat → List Char
  | [] => []
  | [b0] => [b64Char (b0 / 4), b64Char (b0 % 4 * 16), '=', '=']
  | [b0, b1] => [b64Char (b0 / 4), b64Char (b0 % 4 * 16 + b1 / 16), b64Char (b1 % 16 * 4), '=']
  | b0 :: b1 :: b2 :: rest =>
    b64Char (b0 / 4) :: b64Char (b0 % 4 * 16 + b1 / 16) ::
      b64Char (b1 % 16 * 4 + b2 / 64) :: b64Char (b2 % 64) :: base64EncodeList rest

def base64DecodeList : List Char → Except String (List Nat)
  | [] => Except.ok []
  | [c0, c1] =>
    match b64Val c0, b64Val c1 with
    | some v0, some v1 =>
      if v1 % 16 = 0 then Except.ok [v0 * 4 + v1 / 16]
      else Except.error "invalid last symbol"
    | _, _ => Except.error "invalid byte"
  | [c0, c1, c2] =>
    match b64Val c0, b64Val c1, b64Val c2 with
    | some v0, some v1, some v2 =>
      if v2 % 4 = 0 then Except.ok [v0 * 4 + v1 / 16, v1 % 16 * 16 + v2 / 4]
      else Except.error "invalid last symbol"
    | _, _, _ => Except.error "invalid byte"
  | c0 :: c1 :: c2 :: c3 :: rest =>
    match b64Val c0, b64Val c1 with
    | some v0, some v1 =>
      if c2 = '=' then
        if c3 = '=' ∧ rest = [] then
          if v1 % 16 = 0 then Except.ok [v0 * 4 + v1 / 16]
          else Except.error "invalid last symbol"
        else Except.error "invalid byte"
      else
        match b64Val c2 with
        | some v2 =>
          if c3 = '=' then
            if rest = [] then
              if v2 % 4 = 0 then Except.ok [v0 * 4 + v1 / 16, v1 % 16 * 16 + v2 / 4]
              else Except.error "invalid last symbol"
            else Except.error "invalid byte"
          else
            match b64Val c3 with
            | some v3 =>
              match base64DecodeList rest with
              | Except.ok bs =>
                Except.ok ((v0 * 4 + v1 / 16) :: (v1 % 16 * 16 + v2 / 4) ::
                  (v2 % 4 * 64 + v3) :: bs)
              | Except.error e => Except.error e
            | none => Except.error "invalid byte"
        | none => Except.error "invalid byte"
    | _, _ => Except.error "invalid byte"
  | _ => Except.error "invalid length"

/-- `base64::encode`, on the byte list as a string. -/
def base64_encode (bs : List Nat) : String :=
  String.mk (base64EncodeList bs)

/-- `base64::decode`, on the characters of the input string. -/
def base64_decode (s : String) : Except String (List Nat) :=
  base64DecodeList s.data

/-! ## hex encoding

  `hex::encode`: each byte becomes two lowercase hexadecimal digits. -/

def hexDigit (n : Nat) : Char :=
  if n < 10 then Char.ofNat (48 + n) else Char.ofNat (97 + (n - 10))

def hexChars : List Nat → List Char
  | [] => []
  | b :: bs => hexDigit (b / 16) :: hexDigit (b % 16) :: hexChars bs

def hex_encode (bs : List Nat) : String :=
  String.mk (hexChars bs)

/-- `fn base64_to_hex(b: &str) -> anyhow::Result<String>` (src/main.rs
    lines 290-295): base64-decode the input, hex-encode the bytes. -/
def base64_to_hex (b : String) : Except String String :=
  match base64_decode b with
  | Except.ok bytes => Except.ok (hex_encode bytes)
  | Except.error e => Except.error e

theorem b64Val_b64Char : ∀ n, n < 64 → b64Val (b64Char n) = some n := by decide

theorem b64Char_ne_pad : ∀ n, n < 64 → b64Char n ≠ '=' := by decide

theorem except_error_ne_ok {ε α : Type} (e : ε) (a : α) :
    (Except.error e : Except ε α) ≠ Except.ok a :=
  fun h => Except.noConfusion h

theorem b64Val_lt {c : Char} {v : Nat} (h : b64Val c = some v) : v < 64 := by
  unfold b64Val at h
  split_ifs at h with h1 h2 h3 h4 h5 <;> simp only [Option.some.injEq] at h
  · have hz : c.toNat ≤ 90 := h1.2
    omega
  · have hz : c.toNat ≤ 122 := h2.2
    omega
  · have hz : c.toNat ≤ 57 := h3.2
    omega
  · omega
  · omega

theorem base64EncodeList_ne_nil : ∀ (b : Nat) (bs : List Nat), base64EncodeList (b :: bs) ≠ []
  | _, [] => by simp [base64EncodeList]
  | _, [_] => by simp [base64EncodeList]
  | _, _ :: _ :: _ => by simp [base64EncodeList]

theorem base64DecodeList_encodeList : ∀ bs : List Nat, (∀ b ∈ bs, b < 256) →
    base64DecodeList (base64EncodeList bs) = Except.ok bs
  | [], _ => rfl
  | [b0], h => by
    have hb0 : b0 < 256 := h b0 (by simp)
    have h1 : b64Val (b64Char (b0 / 4)) = some (b0 / 4) := b64Val_b64Char _ (by omega)
    have h2 : b64Val (b64Char (b0 % 4 * 16)) = some (b0 % 4 * 16) :=
      b64Val_b64Char _ (by omega)
    simp [base64EncodeList, base64DecodeList, h1, h2, Nat.mul_mod_left]
    omega
  | [b0, b1], h => by
    have hb0 : b0 < 256 := h b0 (by simp)
    have hb1 : b1 < 256 := h b1 (by simp)
    have h1 : b64Val (b64Char (b0 / 4)) = some (b0 / 4) := b64Val_b64Char _ (by omega)
    have h2 : b64Val (b64Char (b0 % 4 * 16 + b1 / 16)) = some (b0 % 4 * 16 + b1 / 16) :=
      b64Val_b64Char _ (by omega)
    have h3 : b64Val (b64Char (b1 % 16 * 4)) = some (b1 % 16 * 4) :=
      b64Val_b64Char _ (by omega)
    have hne : b64Char (b1 % 16 * 4) ≠ '=' := b64Char_ne_pad _ (by omega)
    simp [base64EncodeList, base64DecodeList, h1, h2, h3, hne, Nat.mul_mod_left]
    omega
  | b0 :: b1 :: b2 :: rest, h => by
    have hb0 : b0 < 256 := h b0 (by simp)
    have hb1 : b1 < 256 := h b1 (by simp)
    have hb2 : b2 < 256 := h b2 (by simp)
    have ih : base64DecodeList (base64EncodeList rest) = Except.ok rest :=
      base64DecodeList_encodeList rest (fun b hb => h b (by simp [hb]))
    have h1 : b64Val (b64Char (b0 / 4)) = some (b0 / 4) := b64Val_b64Char _ (by omega)
    have h2 : b64Val (b64Char (b0 % 4 * 16 + b1 / 16)) = some (b0 % 4 * 16 + b1 / 16) :=
      b64Val_b64Char _ (by omega)
    have h3 : b64Val (b64Char (b1 % 16 * 4 + b2 / 64)) = some (b1 % 16 * 4 + b2 / 64) :=
      b64Val_b64Char _ (by omega)
    have h4 : b64Val (b64Char (b2 % 64)) = some (b2 % 64) := b64Val_b64Char _ (by omega)
    have hne2 : b64Char (b1 % 16 * 4 + b2 / 64) ≠ '=' := b64Char_ne_pad _ (by omega)
    have hne3 : b64Char (b2 % 64) ≠ '=' := b64Char_ne_pad _ (by omega)
    rcases rest with _ | ⟨r0, rrest⟩
    · simp [base64EncodeList, base64DecodeList, h1, h2, h3, h4, hne2, hne3]
      omega
    · simp only [base64EncodeList]
      rcases henc : base64EncodeList (r0 :: rrest) with _ | ⟨e0, erest⟩
      · exact absurd henc (base64EncodeList_ne_nil r0 rrest)
      · rw [henc] at ih
        simp [base64DecodeList, h1, h2, h3, h4, hne2, hne3, ih]
        omega

/-- Every decoded byte is below 256 (each output byte packs at most 8 bits). -/
theorem base64DecodeList_bytes_lt : ∀ cs : List Char, ∀ bs : List Nat,
    base64DecodeList cs = Except.ok bs → ∀ b ∈ bs, b < 256
  | [], bs, h => by
    simp only [base64DecodeList, Except.ok.injEq] at h
    subst h; intro b hb; simp at hb
  | [c], bs, h => by
    simp [base64DecodeList] at h
  | [c0, c1], bs, h => by
    rcases hv0 : b64Val c0 with _ | v0 <;> rcases hv1 : b64Val c1 with _ | v1 <;>
        simp only [base64DecodeList, hv0, hv1] at h <;>
        try exact absurd h (except_error_ne_ok _ _)
    have g0 := b64Val_lt hv0
    have g1 := b64Val_lt hv1
    split_ifs at h
    simp only [Except.ok.injEq] at h
    subst h; intro b hb
    simp at hb; omega
  | [c0, c1, c2], bs, h => by
    rcases hv0 : b64Val c0 with _ | v0 <;> rcases hv1 : b64Val c1 with _ | v1 <;>
        rcases hv2 : b64Val c2 with _ | v2 <;>
        simp only [base64DecodeList, hv0, hv1, hv2] at h <;>
        try exact absurd h (except_error_ne_ok _ _)
    have g0 := b64Val_lt hv0
    have g1 := b64Val_lt hv1
    have g2 := b64Val_lt hv2
    split_ifs at h
    simp only [Except.ok.injEq] at h
    subst h; intro b hb
    simp at hb
    rcases hb with hb | hb <;> omega
  | c0 :: c1 :: c2 :: c3 :: rest, bs, h => by
    rcases hv0 : b64Val c0 with _ | v0 <;> rcases hv1 : b64Val c1 with _ | v1 <;>
        simp only [base64DecodeList, hv0, hv1] at h <;>
        try exact absurd h (except_error_ne_ok _ _)
    have g0 := b64Val_lt hv0
    have g1 := b64Val_lt hv1
    by_cases hc2 : c2 = '='
    · rw [if_pos hc2] at h
      split_ifs at h
      simp only [Except.ok.injEq] at h
      subst h; intro b hb
      simp at hb; omega
    · rw [if_neg hc2] at h
      rcases hv2 : b64Val c2 with _ | v2 <;> simp only [hv2] at h
      · exact absurd h (except_error_ne_ok _ _)
      have g2 := b64Val_lt hv2
      by_cases hc3 : c3 = '='
      · rw [if_pos hc3] at h
        split_ifs at h
        simp only [Except.ok.injEq] at h
        subst h; intro b hb
        simp at hb
        rcases hb with hb | hb <;> omega
      · rw [if_neg hc3] at h
        rcases hv3 : b64Val c3 with _ | v3 <;> simp only [hv3] at h
        · exact absurd h (except_error_ne_ok _ _)
        have g3 := b64Val_lt hv3
        rcases hrest : base64DecodeList rest with e | bsr <;> simp only [hrest] at h
        · exact absurd h (except_error_ne_ok _ _)
        have ih := base64DecodeList_bytes_lt rest bsr hrest
        simp only [Except.ok.injEq] at h
        subst h; intro b hb
        simp only [List.mem_cons] at hb
        rcases hb with hb | hb | hb | hb
        · omega
        · omega
        · omega
        · exact ih b hb

theorem base64_decode_encode (bs : List Nat) (h : ∀ b ∈ bs, b < 256) :
    base64_decode (base64_encode bs) = Except.ok bs :=
  base64DecodeList_encodeList bs h


/-! ## getBlockTransactions (src/main.rs lines 167-203) -/

/-- Modelled from the spec: tonlib's ShortTxId record {account, hash, lt,
    mode} — the tonlib module itself is not among the embedded sources;
    only the field names matter here, and hash, lt and mode are opaque
    pass-through values for the handler. -/
structure ShortTxId where
  account : String
  hash : String
  lt : String
  mode : Nat
  deriving DecidableEq, Repr

/-- Modelled from the spec: tonlib's BlockIdExt — the resolved block
    identity (BlockId of the spec's data model: workchain, shard, seqno
    and the two hashes); the handler inspects only workchain. -/
structure BlockIdExt where
  workchain : Int
  shard : Int
  seqno : Nat
  root_hash : String
  file_hash : String
  deriving DecidableEq, Repr

/-- `struct BlockTransactionsParams` (src/main.rs lines 57-67). -/
structure BlockTransactionsParams where
  workchain : Int
  shard : String
  seqno : Nat
  root_hash : Option String
  file_hash : Option String
  after_lt : Option Int
  after_hash : Option String
  count : Option Nat
  deriving DecidableEq, Repr

/-- The per-element transform applied to each backend ShortTxId
    (src/main.rs lines 182-190): the account is rewritten to
    "<workchain>:<hex>" where hex comes from base64_to_hex, whose result
    the source immediately .unwrap()s — so a decode failure panics
    (modelled as none); hash, lt and mode are passed through unchanged. -/
def map_short_tx (workchain : Int) (tx : ShortTxId) : Option ShortTxId :=
  match base64_to_hex tx.account with
  | Except.error _ => none
  | Except.ok hex =>
    some { account := toString workchain ++ ":" ++ hex,
           hash := tx.hash, lt := tx.lt, mode := tx.mode }

/-- The response value of getBlockTransactions (the json! literal at
    src/main.rs lines 195-201); the "@type" field is the constant string
    "blocks.transactions" and incomplete is the constant false. -/
structure BlocksTransactions where
  id : BlockIdExt
  incomplete : Bool
  req_count : Nat
  transactions : List ShortTxId
  deriving DecidableEq, Repr

/-- `fn get_block_transactions` (src/main.rs lines 167-203), given the
    backend by-seqno lookup (the look_up_block_by_seqno call fused with
    the serde_json round trip into BlockIdExt, both of whose failures are
    mapped to Error::internal_error) and the backend transaction stream
    for the resolved block.  count defaults to 200.  A some value is the
    handler's returned response or error; none is a panic inside the
    per-element stream map. -/
def get_block_transactions
    (lookup : Int → Int → Nat → Except BackendError BlockIdExt)
    (stream : BlockIdExt → List ShortTxId)
    (p : BlockTransactionsParams) : Option (Except Error BlocksTransactions) :=
  match parse_i64 p.shard with
  | none => some (Except.error (Error.invalid_params "invalid shard"))
  | some shard =>
    let count := p.count.getD 200
    match lookup p.workchain shard p.seqno with
    | Except.error _ => some (Except.error Error.internal_error)
    | Except.ok block =>
      match (stream block).mapM (map_short_tx block.workchain) with
      | none => none
      | some tx =>
        some (Except.ok { id := block, incomplete := false,
                          req_count := count, transactions := tx })

/-! ## getBlockHeader (src/main.rs lines 153-165) -/

/-- `struct BlockHeaderParams` (src/main.rs lines 48-55). -/
structure BlockHeaderParams where
  workchain : Int
  shard : String
  seqno : Nat
  root_hash : Option String
  file_hash : Option String
  deriving DecidableEq, Repr

/-- `fn get_block_header` (src/main.rs lines 153-165): parse the shard
    string (failure yields InvalidParams "invalid shard"), then call the
    backend, collapsing its failures via jsonrpc_error. -/
def get_block_header {α : Type} (backend : Int → Int → Nat → Except BackendError α)
    (p : BlockHeaderParams) : Except Error α :=
  match parse_i64 p.shard with
  | none => Except.error (Error.invalid_params "invalid shard")
  | some shard => jsonrpc_error (backend p.workchain shard p.seqno)

/-! ## getTransactions (src/main.rs lines 221-253) -/

/-- tonlib's InternalTransactionId as used by the source (src/main.rs line
    232 constructs it from two strings: the lt cursor string and the hash
    string). -/
structure InternalTransactionId where
  hash : String
  lt : String
  deriving DecidableEq, Repr

/-- Modelled from the spec: tonlib's RawTransaction; the gateway inspects
    only transaction_id (the pagination lt), every other backend field is
    opaque (bundled here as one opaque string). -/
structure RawTransaction where
  transaction_id : InternalTransactionId
  rest : String
  deriving DecidableEq, Repr

/-- `struct TransactionsParams` (src/main.rs lines 74-82). -/
structure TransactionsParams where
  address : String
  limit : Option Nat
  lt : Option String
  hash : Option String
  to_lt : Option String
  archival : Option Bool
  deriving DecidableEq, Repr

/-- The two backend stream sources of get_transactions (src/main.rs lines
    230-235): the from-cursor stream when lt and hash are BOTH present,
    the from-latest stream otherwise. -/
inductive TxSource where
  | fromCursor (address : String) (cursor : InternalTransactionId)
  | fromLatest (address : String)
  deriving DecidableEq, Repr

def select_tx_source (address : String) (lt hash : Option String) : TxSource :=
  match lt, hash with
  | some l, some h => TxSource.fromCursor address ⟨h, l⟩
  | _, _ => TxSource.fromLatest address

/-- The take_while predicate of src/main.rs line 238:
    tx.transaction_id.lt.parse::<i64>().unwrap() > to_lt; a parse failure
    panics (none). -/
def tx_lt_gt (to_lt : Int) (tx : RawTransaction) : Option Bool :=
  match parse_i64 tx.transaction_id.lt with
  | some v => some (decide (to_lt < v))
  | none => none

/-- The collected result of stream.take_while(p).take(n) on a lazy
    stream: take pulls at most n elements; take_while stops permanently
    at the first element whose predicate is false and never inspects
    later elements; a predicate panic (none) aborts the collection. -/
def stream_take_while_take {α : Type} (p : α → Option Bool) :
    Nat → List α → Option (List α)
  | _, [] => some []
  | 0, _ :: _ => some []
  | n + 1, x :: xs =>
    match p x with
    | none => none
    | some false => some []
    | some true => (stream_take_while_take p n xs).map (x :: ·)

/-- The stream pipeline of `fn get_transactions` (src/main.rs lines
    225-246): count = limit.unwrap_or(10); max_lt =
    to_lt.and_then(|x| x.parse::<i64>().ok()) — a to_lt parse failure is
    silently discarded; when max_lt is present the stream is bounded by
    take_while, and in all cases it is capped by take(count). -/
def get_transactions_txs (limit : Option Nat) (to_lt : Option String)
    (txs : List RawTransaction) : Option (List RawTransaction) :=
  let count := limit.getD 10
  match to_lt.bind parse_i64 with
  | some max_lt => stream_take_while_take (tx_lt_gt max_lt) count txs
  | none => some (txs.take count)

/-- `fn get_transactions` (src/main.rs lines 221-253): source selection
    from the cursor pair, then the bounding/capping pipeline.  The final
    serde_json::to_value serialization is the identity on the embedded
    record list.  A none is a panic in the take_while predicate. -/
def get_transactions (backend : TxSource → List RawTransaction)
    (p : TransactionsParams) : Option (List RawTransaction) :=
  get_transactions_txs p.limit p.to_lt
    (backend (select_tx_source p.address p.lt p.hash))

/-! ## sendBoc (src/main.rs lines 255-264) -/

/-- `struct SendBocParams` (src/main.rs lines 84-87). -/
structure SendBocParams where
  boc : String
  deriving DecidableEq, Repr

/-- `fn send_boc` (src/main.rs lines 255-264): base64-decode the payload
    (failure yields InvalidParams carrying the decode error description),
    re-encode the decoded bytes to canonical base64, and forward that to
    the backend send_message, whose failures are collapsed by
    jsonrpc_error. -/
def send_boc {α : Type} (send_message : String → Except BackendError α)
    (p : SendBocParams) : Except Error α :=
  match base64_decode p.boc with
  | Except.error e => Except.error (Error.invalid_params e)
  | Except.ok boc => jsonrpc_error (send_message (base64_encode boc))

/-! ## Helper lemmas -/

theorem hexChars_length : ∀ bs : List Nat, (hexChars bs).length = 2 * bs.length
  | [] => rfl
  | b :: bs => by simp [hexChars, hexChars_length bs]; ring

theorem hexDigit_mem : ∀ n, n < 16 → hexDigit n ∈ "0123456789abcdef".data := by decide

theorem hexChars_mem : ∀ bs : List Nat, (∀ b ∈ bs, b < 256) →
    ∀ c ∈ hexChars bs, c ∈ "0123456789abcdef".data
  | [], _, c, hc => by simp [hexChars] at hc
  | b :: bs, h, c, hc => by
    have hb : b < 256 := h b (by simp)
    simp only [hexChars, List.mem_cons] at hc
    rcases hc with hc | hc | hc
    · exact hc ▸ hexDigit_mem _ (by omega)
    · exact hc ▸ hexDigit_mem _ (by omega)
    · exact hexChars_mem bs (fun x hx => h x (by simp [hx])) c hc

theorem option_mapM_eq_map {α β : Type} (f : α → Option β) (g : α → β) :
    ∀ l : List α, (∀ x ∈ l, f x = some (g x)) → l.mapM f = some (l.map g)
  | [], _ => rfl
  | x :: xs, h => by
    rw [List.mapM_cons, h x (by simp),
      option_mapM_eq_map f g xs (fun y hy => h y (by simp [hy]))]
    rfl

/-- C2: the claim says that when base64-decoding a backend-supplied
    account identifier fails, the call surfaces an internal error and the
    handler still returns a response value.  The code instead .unwrap()s
    the base64_to_hex result (src/main.rs line 185): on the backend
    account string "!" the per-element transform panics, and the whole
    handler produces no response at all (none) — neither an internal
    error nor any other response. -/
theorem get_block_transactions_decode_panics :
    base64_to_hex "!" = Except.error "invalid length" ∧
    map_short_tx 0 { account := "!", hash := "h", lt := "1", mode := 0 } = none ∧
    get_block_transactions (fun w s q => Except.ok ⟨w, s, q, "r", "f"⟩)
      (fun _ => [{ account := "!", hash := "h", lt := "1", mode := 0 }])
      ⟨0, "1", 1, none, none, none, none, none⟩ = none :=
  ⟨rfl, rfl, rfl⟩

/-- C5: for every getBlockTransactions call whose shard parses, whose
    lookup resolves to a block, and whose backend stream yields accounts
    that all base64-decode (dec gives the decoded bytes), the response
    rewrites every transaction's account to "<workchain>:<hex>" — the
    owning resolved block's workchain and the lowercase hex encoding of
    the decoded bytes, whose length is exactly twice the decoded byte
    length — while hash, lt and mode pass through unchanged. -/
theorem get_block_transactions_account_format
    (lookup : Int → Int → Nat → Except BackendError BlockIdExt)
    (stream : BlockIdExt → List ShortTxId)
    (p : BlockTransactionsParams) (shard : Int) (block : BlockIdExt)
    (dec : ShortTxId → List Nat)
    (hsh : parse_i64 p.shard = some shard)
    (hlk : lookup p.workchain shard p.seqno = Except.ok block)
    (hdec : ∀ tx ∈ stream block, base64_decode tx.account = Except.ok (dec tx)) :
    get_block_transactions lookup stream p =
      some (Except.ok
        { id := block, incomplete := false, req_count := p.count.getD 200,
          transactions := (stream block).map (fun tx =>
            { account := toString block.workchain ++ ":" ++ hex_encode (dec tx),
              hash := tx.hash, lt := tx.lt, mode := tx.mode }) }) ∧
    (∀ tx ∈ stream block,
      (hex_encode (dec tx)).length = 2 * (dec tx).length ∧
      ∀ c ∈ (hex_encode (dec tx)).data, c ∈ "0123456789abcdef".data) := by
  constructor
  · have hmap : ∀ tx ∈ stream block, map_short_tx block.workchain tx =
        some { account := toString block.workchain ++ ":" ++ hex_encode (dec tx),
               hash := tx.hash, lt := tx.lt, mode := tx.mode } := by
      intro tx htx
      simp only [map_short_tx, base64_to_hex, hdec tx htx]
    simp only [get_block_transactions, hsh, hlk,
      option_mapM_eq_map _ _ (stream block) hmap]
  · intro tx htx
    constructor
    · show (String.mk (hexChars (dec tx))).length = 2 * (dec tx).length
      simp [String.length, hexChars_length]
    · intro c hc
      exact hexChars_mem (dec tx)
        (base64DecodeList_bytes_lt tx.account.data (dec tx) (hdec tx htx)) c hc

/-- Witness for `get_block_transactions_account_format`: one backend
    transaction with account "QQ==" (decoding to the single byte 0x41)
    in block (0, 1, 1) comes back with account "0:41" and untouched
    hash/lt/mode. -/
theorem get_block_transactions_account_format_witness :
    get_block_transactions (fun w s q => Except.ok ⟨w, s, q, "r", "f"⟩)
      (fun _ => [{ account := "QQ==", hash := "hh", lt := "7", mode := 2 }])
      ⟨0, "1", 1, none, none, none, none, none⟩ =
      some (Except.ok
        { id := ⟨0, 1, 1, "r", "f"⟩, incomplete := false, req_count := 200,
          transactions := [{ account := toString (0 : Int) ++ ":" ++ hex_encode [65],
                             hash := "hh", lt := "7", mode := 2 }] }) ∧
    (∀ tx ∈ [({ account := "QQ==", hash := "hh", lt := "7", mode := 2 } : ShortTxId)],
      (hex_encode [65]).length = 2 * ([65] : List Nat).length ∧
      ∀ c ∈ (hex_encode [65]).data, c ∈ "0123456789abcdef".data) := by
  have h := get_block_transactions_account_format
    (fun w s q => Except.ok ⟨w, s, q, "r", "f"⟩)
    (fun _ => [{ account := "QQ==", hash := "hh", lt := "7", mode := 2 }])
    ⟨0, "1", 1, none, none, none, none, none⟩ 1 ⟨0, 1, 1, "r", "f"⟩
    (fun _ => [65]) rfl rfl (by intro tx htx; simp at htx; subst htx; rfl)
  exact ⟨h.1, fun tx htx => h.2 tx htx⟩

theorem stream_take_while_take_eq {α : Type} (p : α → Option Bool) (q : α → Bool) :
    ∀ (n : Nat) (l : List α), (∀ x ∈ l, p x = some (q x)) →
      stream_take_while_take p n l = some ((l.takeWhile q).take n)
  | n, [], _ => by cases n <;> rfl
  | 0, _ :: _, _ => rfl
  | n + 1, x :: xs, h => by
    rw [stream_take_while_take, h x (by simp), List.takeWhile_cons]
    rcases hq : q x
    · simp
    · simp only [if_pos rfl, List.take_succ_cons,
        stream_take_while_take_eq p q n xs (fun y hy => h y (by simp [hy]))]
      rfl

theorem takeWhile_longest {α : Type} (q : α → Bool) :
    ∀ (pre rest : List α), (∀ x ∈ pre, q x = true) →
      pre.length ≤ ((pre ++ rest).takeWhile q).length
  | [], _, _ => by simp
  | a :: pre, rest, hp => by
    rw [List.cons_append, List.takeWhile_cons, if_pos (hp a (by simp))]
    simpa using takeWhile_longest q pre rest (fun x hx => hp x (by simp [hx]))

/-- C3: with a parsed to_lt bound B and well-formed backend lt strings,
    the pipeline output is the take-while stage capped by the limit: there
    is a division txs = pre ++ rest where pre is what the bound stage
    yields — every element of pre has lt > B, pre is a prefix of the
    backend sequence (not a filtered subsequence), and pre is the longest
    such prefix (any leading block of elements all satisfying lt > B is no
    longer) — the response is pre.take(limit), and every returned
    transaction has lt > B. -/
theorem get_transactions_to_lt_take_while
    (limit : Option Nat) (s : String) (B : Int) (txs : List RawTransaction)
    (hB : parse_i64 s = some B)
    (hwf : ∀ tx ∈ txs, ∃ v, parse_i64 tx.transaction_id.lt = some v) :
    ∃ pre rest,
      txs = pre ++ rest ∧
      get_transactions_txs limit (some s) txs = some (pre.take (limit.getD 10)) ∧
      (∀ tx ∈ pre, ∃ v, parse_i64 tx.transaction_id.lt = some v ∧ B < v) ∧
      (∀ pre2 rest2, txs = pre2 ++ rest2 →
        (∀ tx ∈ pre2, ∃ v, parse_i64 tx.transaction_id.lt = some v ∧ B < v) →
        pre2.length ≤ pre.length) ∧
      (∀ tx ∈ (get_transactions_txs limit (some s) txs).getD [],
        ∃ v, parse_i64 tx.transaction_id.lt = some v ∧ B < v) := by
  classical
  set q : RawTransaction → Bool :=
    fun tx => match parse_i64 tx.transaction_id.lt with
      | some v => decide (B < v)
      | none => false with hq
  have hpq : ∀ tx ∈ txs, tx_lt_gt B tx = some (q tx) := by
    intro tx htx
    rcases hwf tx htx with ⟨v, hv⟩
    simp [tx_lt_gt, hv, hq]
  have hpipe : get_transactions_txs limit (some s) txs =
      some ((txs.takeWhile q).take (limit.getD 10)) := by
    simp only [get_transactions_txs, Option.bind, hB,
      stream_take_while_take_eq (tx_lt_gt B) q (limit.getD 10) txs hpq]
  have hmemq : ∀ tx, tx ∈ txs → q tx = true →
      ∃ v, parse_i64 tx.transaction_id.lt = some v ∧ B < v := by
    intro tx htx hqt
    rcases hwf tx htx with ⟨v, hv⟩
    refine ⟨v, hv, ?_⟩
    simp [hq, hv] at hqt
    exact hqt
  refine ⟨txs.takeWhile q, txs.dropWhile q,
    (List.takeWhile_append_dropWhile q txs).symm, hpipe, ?_, ?_, ?_⟩
  · intro tx htx
    exact hmemq tx ((List.takeWhile_append_dropWhile q txs) ▸
        List.mem_append_left _ htx)
      (List.mem_takeWhile_imp htx)
  · intro pre2 rest2 hsplit hpre2
    have : ∀ x ∈ pre2, q x = true := by
      intro x hx
      rcases hpre2 x hx with ⟨v, hv, hvB⟩
      simp [hq, hv, hvB]
    calc pre2.length ≤ ((pre2 ++ rest2).takeWhile q).length :=
          takeWhile_longest q pre2 rest2 this
      _ = (txs.takeWhile q).length := by rw [← hsplit]
  · intro tx htx
    rw [hpipe] at htx
    simp only [Option.getD_some] at htx
    have htx' : tx ∈ txs.takeWhile q := List.mem_of_mem_take htx
    exact hmemq tx ((List.takeWhile_append_dropWhile q txs) ▸
        List.mem_append_left _ htx')
      (List.mem_takeWhile_imp htx')

/-- Witness for `get_transactions_to_lt_take_while`: backend lts 5, 1, 7
    with bound 3 — the output is [lt 5] alone: take-while stops at lt 1
    and the later lt 7 is never yielded (a filter would keep it). -/
theorem get_transactions_to_lt_take_while_witness :
    ∃ pre rest,
      ([⟨⟨"a", "5"⟩, "x"⟩, ⟨⟨"b", "1"⟩, "y"⟩, ⟨⟨"c", "7"⟩, "z"⟩] :
          List RawTransaction) = pre ++ rest ∧
      get_transactions_txs none (some "3")
          [⟨⟨"a", "5"⟩, "x"⟩, ⟨⟨"b", "1"⟩, "y"⟩, ⟨⟨"c", "7"⟩, "z"⟩] =
        some (pre.take ((none : Option Nat).getD 10)) ∧
      (∀ tx ∈ pre, ∃ v, parse_i64 tx.transaction_id.lt = some v ∧ (3 : Int) < v) ∧
      (∀ pre2 rest2,
        ([⟨⟨"a", "5"⟩, "x"⟩, ⟨⟨"b", "1"⟩, "y"⟩, ⟨⟨"c", "7"⟩, "z"⟩] :
            List RawTransaction) = pre2 ++ rest2 →
        (∀ tx ∈ pre2, ∃ v, parse_i64 tx.transaction_id.lt = some v ∧ (3 : Int) < v) →
        pre2.length ≤ pre.length) ∧
      (∀ tx ∈ (get_transactions_txs none (some "3")
          [⟨⟨"a", "5"⟩, "x"⟩, ⟨⟨"b", "1"⟩, "y"⟩, ⟨⟨"c", "7"⟩, "z"⟩]).getD [],
        ∃ v, parse_i64 tx.transaction_id.lt = some v ∧ (3 : Int) < v) :=
  get_transactions_to_lt_take_while none "3" 3
    [⟨⟨"a", "5"⟩, "x"⟩, ⟨⟨"b", "1"⟩, "y"⟩, ⟨⟨"c", "7"⟩, "z"⟩] rfl
    (by
      intro tx htx
      simp at htx
      rcases htx with h | h | h <;> subst h
      · exact ⟨5, rfl⟩
      · exact ⟨1, rfl⟩
      · exact ⟨7, rfl⟩)

/-- C8: with limit = L and no to_lt bound, the pipeline returns exactly
    the first L backend-yielded transactions in backend order (a prefix of
    the upstream sequence), so the returned length is
    min(L, upstream length); when limit is absent it defaults to 10. -/
theorem get_transactions_limit_cap (L : Nat) (txs : List RawTransaction) :
    get_transactions_txs (some L) none txs = some (txs.take L) ∧
    (txs.take L).length = min L txs.length ∧
    (∃ rest, txs = txs.take L ++ rest) ∧
    get_transactions_txs none none txs = some (txs.take 10) ∧
    (txs.take 10).length = min 10 txs.length :=
  ⟨rfl, by simp [List.length_take],
    ⟨txs.drop L, (List.take_append_drop L txs).symm⟩, rfl,
    by simp [List.length_take]⟩

/-- C9: a request supplying exactly one of the cursor fields lt and hash
    raises no error; the partial cursor is discarded and the handler
    selects the from-latest source, behaving identically to a request
    supplying neither cursor field. -/
theorem get_transactions_partial_cursor
    (backend : TxSource → List RawTransaction)
    (address : String) (limit : Option Nat) (to_lt : Option String)
    (archival : Option Bool) (l h : String) :
    select_tx_source address (some l) none = TxSource.fromLatest address ∧
    select_tx_source address none (some h) = TxSource.fromLatest address ∧
    select_tx_source address none none = TxSource.fromLatest address ∧
    get_transactions backend ⟨address, limit, some l, none, to_lt, archival⟩ =
      get_transactions backend ⟨address, limit, none, none, to_lt, archival⟩ ∧
    get_transactions backend ⟨address, limit, none, some h, to_lt, archival⟩ =
      get_transactions backend ⟨address, limit, none, none, to_lt, archival⟩ :=
  ⟨rfl, rfl, rfl, rfl, rfl⟩

/-- C10: when the to_lt string does not parse as a signed 64-bit integer,
    no InvalidParams error is raised; the bound is silently dropped and
    the call behaves exactly as if to_lt were absent (the pipeline is the
    plain take(limit) cap, with no stop condition). -/
theorem get_transactions_bad_to_lt_dropped
    (backend : TxSource → List RawTransaction)
    (address : String) (limit : Option Nat) (lt hash : Option String)
    (archival : Option Bool) (s : String) (txs : List RawTransaction)
    (hs : parse_i64 s = none) :
    get_transactions backend ⟨address, limit, lt, hash, some s, archival⟩ =
      get_transactions backend ⟨address, limit, lt, hash, none, archival⟩ ∧
    get_transactions_txs limit (some s) txs = some (txs.take (limit.getD 10)) := by
  constructor
  · simp [get_transactions, get_transactions_txs, Option.bind, hs]
  · simp [get_transactions_txs, Option.bind, hs]

/-- Witness for `get_transactions_bad_to_lt_dropped`: to_lt = "12x" does
    not parse and the call equals the no-bound call. -/
theorem get_transactions_bad_to_lt_dropped_witness :
    get_transactions (fun _ => []) ⟨"addr", none, none, none, some "12x", none⟩ =
      get_transactions (fun _ => []) ⟨"addr", none, none, none, none, none⟩ ∧
    get_transactions_txs none (some "12x") [] =
      some (([] : List RawTransaction).take 10) :=
  get_transactions_bad_to_lt_dropped (fun _ => []) "addr" none none none none
    "12x" [] rfl

/-- C6: every backend-client error is collapsed by jsonrpc_error to the
    one constant, detail-free internal error — the mapping is independent
    of the backend error's details, which never reach the response —
    while validation failures from parameter resolution keep their
    specific messages ("invalid shard", "seqno or lt or unixtime must be
    provided", the base64 decode description in sendBoc). -/
theorem backend_errors_collapsed :
    (∀ (α : Type) (e : BackendError),
      jsonrpc_error (Except.error e : Except BackendError α) =
        Except.error Error.internal_error) ∧
    Error.internal_error.message = "Internal error" ∧
    (∀ (α : Type) (e1 e2 : BackendError),
      jsonrpc_error (Except.error e1 : Except BackendError α) =
        jsonrpc_error (Except.error e2)) ∧
    lookup_block_resolve ⟨0, "abc", some 1, none, none⟩ =
      Except.error (Error.invalid_params "invalid shard") ∧
    lookup_block_resolve ⟨0, "1", none, none, none⟩ =
      Except.error (Error.invalid_params "seqno or lt or unixtime must be provided") ∧
    send_boc (fun _ => Except.ok (0 : Nat)) ⟨"!"⟩ =
      Except.error (Error.invalid_params "invalid length") :=
  ⟨fun _ _ => rfl, rfl, fun _ _ _ => rfl, rfl, rfl, rfl⟩

/-- C7: the shard string of lookupBlock, getBlockHeader and
    getBlockTransactions is accepted exactly when it parses as a signed
    64-bit decimal integer (negative decimal strings included): the
    minimal i64 string parses to -(2 to the 63), "abc" does not parse,
    every parse failure yields InvalidParams "invalid shard" in all three
    handlers, and no parsed shard ever produces that error. -/
theorem shard_parse_rule :
    parse_i64 "-9223372036854775808" = some (-(2 ^ 63)) ∧
    parse_i64 "-1" = some (-1) ∧
    parse_i64 "abc" = none ∧
    (∀ p : LookupBlockParams, parse_i64 p.shard = none →
      lookup_block_resolve p = Except.error (Error.invalid_params "invalid shard")) ∧
    (∀ (α : Type) (backend : Int → Int → Nat → Except BackendError α)
      (p : BlockHeaderParams), parse_i64 p.shard = none →
      get_block_header backend p = Except.error (Error.invalid_params "invalid shard")) ∧
    (∀ (lookup : Int → Int → Nat → Except BackendError BlockIdExt)
      (stream : BlockIdExt → List ShortTxId) (p : BlockTransactionsParams),
      parse_i64 p.shard = none →
      get_block_transactions lookup stream p =
        some (Except.error (Error.invalid_params "invalid shard"))) ∧
    (∀ p : LookupBlockParams, (∃ v, parse_i64 p.shard = some v) →
      lookup_block_resolve p ≠ Except.error (Error.invalid_params "invalid shard")) ∧
    (∀ (α : Type) (backend : Int → Int → Nat → Except BackendError α)
      (p : BlockHeaderParams), (∃ v, parse_i64 p.shard = some v) →
      get_block_header backend p ≠
        Except.error (Error.invalid_params "invalid shard")) ∧
    (∀ (lookup : Int → Int → Nat → Except BackendError BlockIdExt)
      (stream : BlockIdExt → List ShortTxId) (p : BlockTransactionsParams),
      (∃ v, parse_i64 p.shard = some v) →
      get_block_transactions lookup stream p ≠
        some (Except.error (Error.invalid_params "invalid shard"))) := by
  refine ⟨by decide, by decide, by decide, ?_, ?_, ?_, ?_, ?_, ?_⟩
  · intro p h
    simp [lookup_block_resolve, h]
  · intro α backend p h
    simp [get_block_header, h]
  · intro lookup stream p h
    simp [get_block_transactions, h]
  · rintro p ⟨v, hv⟩
    unfold lookup_block_resolve
    rw [hv]
    rcases p.seqno with _ | s <;> rcases p.lt with _ | l <;>
      rcases p.unixtime with _ | u <;>
      simp [Error.invalid_params] <;> split_ifs <;>
      simp [Error.invalid_params]
  · rintro α backend p ⟨v, hv⟩
    simp only [get_block_header, hv, jsonrpc_error]
    rcases hba : backend p.workchain v p.seqno with e | a
    · simp only [hba]
      simp [Error.internal_error, Error.invalid_params]
    · simp only [hba]
      simp
  · rintro lookup stream p ⟨v, hv⟩
    simp only [get_block_transactions, hv]
    rcases hlk : lookup p.workchain v p.seqno with e | block
    · simp only [hlk]
      simp [Error.internal_error, Error.invalid_params]
    · simp only [hlk]
      rcases hm : (stream block).mapM (map_short_tx block.workchain) with _ | tx
      · simp only [hm]
        simp
      · simp only [hm]
        simp

/-- Witness for `shard_parse_rule`: the concrete shard strings "abc"
    (rejected with InvalidParams "invalid shard") and the minimal i64
    string (accepted: no "invalid shard" error) in a lookupBlock call. -/
theorem shard_parse_rule_witness :
    lookup_block_resolve ⟨0, "abc", some 1, none, none⟩ =
      Except.error (Error.invalid_params "invalid shard") ∧
    lookup_block_resolve ⟨0, "-9223372036854775808", some 1, none, none⟩ ≠
      Except.error (Error.invalid_params "invalid shard") :=
  ⟨shard_parse_rule.2.2.2.1 ⟨0, "abc", some 1, none, none⟩ rfl,
   shard_parse_rule.2.2.2.2.2.2.1 ⟨0, "-9223372036854775808", some 1, none, none⟩
     ⟨-(2 ^ 63), by decide⟩⟩

/-- C4: a syntactically invalid base64 boc yields InvalidParams carrying
    the decode error message (an InvalidParams code, never an internal or
    backend error); a valid payload is decoded and re-encoded to
    canonical base64 before being forwarded; and the round trip is
    idempotent on canonical payloads: the encoding of any byte list
    decodes back to exactly those bytes, so such a payload is forwarded
    to the backend unchanged. -/
theorem send_boc_base64_round_trip {α : Type}
    (send_message : String → Except BackendError α) :
    (∀ boc e, base64_decode boc = Except.error e →
      send_boc send_message ⟨boc⟩ = Except.error (Error.invalid_params e) ∧
      (Error.invalid_params e).code = ErrorCode.invalidParams) ∧
    (∀ boc bs, base64_decode boc = Except.ok bs →
      send_boc send_message ⟨boc⟩ =
        jsonrpc_error (send_message (base64_encode bs))) ∧
    (∀ bs, (∀ b ∈ bs, b < 256) →
      base64_decode (base64_encode bs) = Except.ok bs ∧
      send_boc send_message ⟨base64_encode bs⟩ =
        jsonrpc_error (send_message (base64_encode bs))) := by
  refine ⟨?_, ?_, ?_⟩
  · intro boc e h
    exact ⟨by simp [send_boc, h], rfl⟩
  · intro boc bs h
    simp [send_boc, h]
  · intro bs hb
    have h := base64_decode_encode bs hb
    exact ⟨h, by simp [send_boc, h]⟩

/-- Witness for `send_boc_base64_round_trip`: the one-character payload
    "!" is rejected as InvalidParams "invalid length"; the valid but
    non-canonical payload "QQ" is forwarded re-encoded (as the canonical
    encoding of its decoded byte 0x41); the canonical payload
    encode([77, 97, 110]) is forwarded unchanged. -/
theorem send_boc_base64_round_trip_witness :
    (send_boc (fun s => Except.ok s) ⟨"!"⟩ =
      Except.error (Error.invalid_params "invalid length") ∧
      (Error.invalid_params "invalid length").code = ErrorCode.invalidParams) ∧
    send_boc (fun s => Except.ok s) ⟨"QQ"⟩ =
      jsonrpc_error (Except.ok (base64_encode [65])) ∧
    (base64_decode (base64_encode [77, 97, 110]) = Except.ok [77, 97, 110] ∧
      send_boc (fun s => Except.ok s) ⟨base64_encode [77, 97, 110]⟩ =
        jsonrpc_error (Except.ok (base64_encode [77, 97, 110]))) :=
  ⟨(send_boc_base64_round_trip (fun s => Except.ok s)).1 "!" "invalid length" rfl,
   (send_boc_base64_round_trip (fun s => Except.ok s)).2.1 "QQ" [65] rfl,
   (send_boc_base64_round_trip (fun s => Except.ok s)).2.2 [77, 97, 110] (by decide)⟩

end TonGrpc
